import Mathlib

/-!
Verification development for the matrix-stickerbook collection-and-curation
engine.  The Go storage layer (collection store, pack store), the collection
workflow's record construction, the usage resolver and the MSC2545 publish
translator are embedded as pure Lean functions.  File I/O (`LoadCollection` /
`SaveCollection`, `LoadPacks` / `SavePacks`) is modelled by passing the store
state explicitly: each Go operation loads the state, transforms it and saves
it, so it becomes a pure function from state to state; operations that return
a Go `error` before reaching their save calls are modelled with `Except`,
whose `.error` branch carries no state because nothing was persisted.
External collaborators (transport download/upload, captioning) appear only
through their results, passed as parameters.
-/

namespace Stickerbook

/-- `storage.Sticker` (types.go): one collected image with its metadata.
`time.Time` is modelled as a `Nat` timestamp; Go `nil` slices are modelled as
the empty list (the source only ever tests `len(...) > 0`). -/
structure Sticker where
  ID : String
  Name : String
  CollectedAt : Nat
  SourceRoom : String
  SourceEvent : String
  SourceMXC : String
  LocalMXC : String
  MimeType : String
  Width : Int
  Height : Int
  SizeBytes : Int
  OriginalBody : String
  GeneratedAltText : String
  InPacks : List String
  Usage : List String
deriving DecidableEq

/-- `storage.Collection` (types.go): all collected stickers. -/
structure Collection where
  stickers : List Sticker
deriving DecidableEq

/-- `storage.Pack` (types.go): a curated sticker pack.  The Go
`map[string]string` of published rooms is modelled as an association list
from room id to state key. -/
structure Pack where
  Name : String
  DisplayName : String
  AvatarURL : String
  Attribution : String
  StickerIDs : List String
  PublishedRooms : List (String × String)
  Usage : List String
deriving DecidableEq

/-- `storage.PacksData` (types.go): all pack definitions. -/
structure PacksData where
  packs : List Pack
deriving DecidableEq

/-- Go map assignment `m[k] = v` on the association-list model: replaces the
value at an existing key in place, otherwise appends a new entry. -/
def assocSet {α : Type} (m : List (String × α)) (k : String) (v : α) : List (String × α) :=
  if m.any (fun e => e.1 = k) then
    m.map (fun e => if e.1 = k then (k, v) else e)
  else
    m ++ [(k, v)]

/-- The scan-and-replace loop of `storage.AddSticker` (collection.go):
the first record with the same ID is overwritten with the new record,
otherwise the record is appended at the end. -/
def addStickerList (s : Sticker) : List Sticker → List Sticker
  | [] => [s]
  | e :: rest => if e.ID = s.ID then s :: rest else e :: addStickerList s rest

/-- `storage.AddSticker` (collection.go): upsert by content id. -/
def AddSticker (c : Collection) (s : Sticker) : Collection :=
  { stickers := addStickerList s c.stickers }

/-- `storage.GetSticker` (collection.go): first record with the given ID,
else a not-found error. -/
def GetSticker (c : Collection) (id : String) : Except String Sticker :=
  match c.stickers.find? (fun s => s.ID = id) with
  | some s => Except.ok s
  | none => Except.error ("sticker not found: " ++ id)

/-- The find-and-set loop shared by `UpdateAltText`, `SetStickerUsage` and
`SetStickerName` (collection.go): update the first record with the given ID,
else a not-found error. -/
def setFirstSticker (f : Sticker → Sticker) (id : String) : List Sticker → Except String (List Sticker)
  | [] => Except.error ("sticker not found: " ++ id)
  | s :: rest =>
    if s.ID = id then Except.ok (f s :: rest)
    else (setFirstSticker f id rest).map (fun l => s :: l)

/-- `storage.UpdateAltText` (collection.go). -/
def UpdateAltText (c : Collection) (id : String) (altText : String) : Except String Collection :=
  (setFirstSticker (fun s => { s with GeneratedAltText := altText }) id c.stickers).map Collection.mk

/-- `storage.SetStickerUsage` (collection.go). -/
def SetStickerUsage (c : Collection) (id : String) (usage : List String) : Except String Collection :=
  (setFirstSticker (fun s => { s with Usage := usage }) id c.stickers).map Collection.mk

/-- `storage.SetStickerName` (collection.go). -/
def SetStickerName (c : Collection) (id : String) (name : String) : Except String Collection :=
  (setFirstSticker (fun s => { s with Name := name }) id c.stickers).map Collection.mk

/-- Go `strings.ToLower`, modelled character-wise over the string's
characters (kernel-computable, unlike `String.toLower`). -/
def strToLower (s : String) : String :=
  String.mk (s.data.map Char.toLower)

/-- Go `strings.TrimSpace`: whitespace stripped from both ends. -/
def strTrimSpace (s : String) : String :=
  String.mk (((s.data.dropWhile Char.isWhitespace).reverse.dropWhile Char.isWhitespace).reverse)

/-- If the first list is a prefix of the second, the remainder after it. -/
def stripPat : List Char → List Char → Option (List Char)
  | [], l => some l
  | _ :: _, [] => none
  | p :: ps, c :: cs => if p = c then stripPat ps cs else none

/-- The left-to-right scan of Go `strings.ReplaceAll`: at each position, a
match of the pattern is replaced (the replacement is not rescanned),
otherwise the character is kept.  The fuel argument (instantiated with the
list's length, an upper bound on the number of steps for a non-empty
pattern) makes the recursion structural. -/
def replaceLoop (pat rep : List Char) : Nat → List Char → List Char
  | _, [] => []
  | 0, l => l
  | Nat.succ fuel, c :: cs =>
    match stripPat pat (c :: cs) with
    | some rest => rep ++ replaceLoop pat rep fuel rest
    | none => c :: replaceLoop pat rep fuel cs

/-- Go `strings.ReplaceAll`. -/
def strReplaceAll (s pat rep : String) : String :=
  String.mk (replaceLoop pat.data rep.data s.data.length s.data)

/-- `storage.ParseUsage` (usage.go): case-insensitive token to canonical
usage list; `"reset"` yields the no-override value (Go `nil`, modelled as
`[]`); anything else is an invalid-usage error naming the vocabulary. -/
def ParseUsage (input : String) : Except String (List String) :=
  let t := strToLower (strTrimSpace input)
  if t = "sticker" then Except.ok ["sticker"]
  else if t = "emoticon" ∨ t = "emoji" then Except.ok ["emoticon"]
  else if t = "both" then Except.ok ["sticker", "emoticon"]
  else if t = "reset" then Except.ok []
  else Except.error ("invalid usage type: " ++ t ++ " (valid: sticker, emoticon, emoji, both, reset)")

/-- `storage.CreatePackWithAttribution` (packs.go): fails if a pack with the
same name exists, else appends a pack with empty members and empty publish
ledger. -/
def CreatePackWithAttribution (pd : PacksData) (name displayName attribution : String) :
    Except String PacksData :=
  if pd.packs.any (fun p => p.Name = name) then
    Except.error ("pack already exists: " ++ name)
  else
    Except.ok { packs := pd.packs ++
      [{ Name := name, DisplayName := displayName, AvatarURL := "", Attribution := attribution,
         StickerIDs := [], PublishedRooms := [], Usage := [] }] }

/-- `bot.packCreate` (commands.go): normalizes the requested name (spaces to
hyphens, then lower-cased), rejects the reserved name `unsorted` before any
store call, and otherwise creates the pack with the caller's user id as
attribution. -/
def packCreate (pd : PacksData) (userID : String) (name : String) : Except String PacksData :=
  let displayName := name
  let packID := strToLower (strReplaceAll name (" ") ("-"))
  if packID = "unsorted" then
    Except.error ("Cannot create pack named 'unsorted' - this is a reserved name for stickers not in any pack")
  else
    CreatePackWithAttribution pd packID displayName userID

/-- The alt-text cleanup in `bot.collectSticker` (reactions.go): line breaks
collapsed to spaces, then trimmed. -/
def cleanAltText (s : String) : String :=
  strTrimSpace (strReplaceAll (strReplaceAll (strReplaceAll s ("\r\n") (" ")) ("\n") (" ")) ("\r") (" "))

/-- The sticker record built by `bot.collectSticker` (reactions.go) before
`storage.AddSticker` is called.  `hash` stands for `matrix.HashImage`
(SHA-256 hex of the raw bytes); the download, rehost and captioning results
enter as the `localMXC`, size and `altText` parameters. -/
def collectStickerRecord (hash : List Nat → String) (imageData : List Nat)
    (roomID eventID mxcURI localMXC mimeType : String) (width height sizeBytes : Int)
    (originalBody altText : String) (now : Nat) : Sticker :=
  { ID := hash imageData
    Name := hash imageData
    CollectedAt := now
    SourceRoom := roomID
    SourceEvent := eventID
    SourceMXC := mxcURI
    LocalMXC := localMXC
    MimeType := mimeType
    Width := width
    Height := height
    SizeBytes := sizeBytes
    OriginalBody := originalBody
    GeneratedAltText := cleanAltText altText
    InPacks := []
    Usage := [] }

/-- The per-id validate-and-add loop of `storage.AddToPack` (packs.go):
each listed id must exist in the collection (else the whole call errors
before anything is saved); an id not yet in the member list is appended,
an id already present is skipped. -/
def addIds (c : Collection) : List String → List String → Except String (List String)
  | [], members => Except.ok members
  | id :: rest, members =>
    if c.stickers.any (fun s => s.ID = id) then
      addIds c rest (if id ∈ members then members else members ++ [id])
    else
      Except.error ("sticker not found in collection: " ++ id)

/-- The find-pack-index-then-mutate pattern shared by `AddToPack`,
`RemoveFromPack`, `SetPackAvatar`, `SetPackUsage` and `UpdatePublished`
(packs.go): the first pack with the given name is transformed (the
transformation itself may fail), every other pack is untouched; a missing
pack is a not-found error. -/
def modifyFirstPack (f : Pack → Except String Pack) (packName : String) :
    List Pack → Except String (List Pack)
  | [] => Except.error ("pack not found: " ++ packName)
  | p :: rest =>
    if p.Name = packName then (f p).map (fun q => q :: rest)
    else (modifyFirstPack f packName rest).map (fun l => p :: l)

/-- The find-pack-then-mutate part of `storage.AddToPack` (packs.go): the
first pack with the given name has its member list extended by `addIds`;
a missing pack is a not-found error (checked before any id validation). -/
def addToPacks (c : Collection) (packName : String) (ids : List String) :
    List Pack → Except String (List Pack) :=
  modifyFirstPack
    (fun p => (addIds c ids p.StickerIDs).map (fun ms => { p with StickerIDs := ms })) packName

/-- The back-reference update loop of `storage.AddToPack` (packs.go): every
sticker whose ID is listed gains the pack name in `InPacks` unless already
present. -/
def addPackBackRef (packName : String) (ids : List String) (s : Sticker) : Sticker :=
  if s.ID ∈ ids then
    if packName ∈ s.InPacks then s
    else { s with InPacks := s.InPacks ++ [packName] }
  else s

/-- `storage.AddToPack` (packs.go).  The Go function saves the collection and
the packs only after the whole validation loop succeeds, so an error carries
no state: nothing was persisted. -/
def AddToPack (c : Collection) (pd : PacksData) (packName : String) (ids : List String) :
    Except String (Collection × PacksData) :=
  match addToPacks c packName ids pd.packs with
  | Except.error e => Except.error e
  | Except.ok packs1 =>
    Except.ok ({ stickers := c.stickers.map (addPackBackRef packName ids) }, { packs := packs1 })

/-- The persisted stores after a call to `storage.AddToPack`: on success the
saved states, on error the unchanged inputs (the Go saves are unreached). -/
def runAddToPack (c : Collection) (pd : PacksData) (packName : String) (ids : List String) :
    Collection × PacksData :=
  match AddToPack c pd packName ids with
  | Except.ok st => st
  | Except.error _ => (c, pd)

/-- The member-removal loop of `storage.RemoveFromPack` (packs.go): for each
listed id, the member list is rebuilt without it. -/
def removeIds (members : List String) (ids : List String) : List String :=
  ids.foldl (fun ms i => ms.filter (fun x => x ≠ i)) members

/-- The find-pack-then-mutate part of `storage.RemoveFromPack` (packs.go). -/
def removeFromPacks (packName : String) (ids : List String) :
    List Pack → Except String (List Pack) :=
  modifyFirstPack (fun p => Except.ok { p with StickerIDs := removeIds p.StickerIDs ids }) packName

/-- The back-reference removal loop of `storage.RemoveFromPack` (packs.go):
every sticker whose ID is listed drops the pack name from `InPacks`. -/
def removePackBackRef (packName : String) (ids : List String) (s : Sticker) : Sticker :=
  if s.ID ∈ ids then
    { s with InPacks := s.InPacks.filter (fun x => x ≠ packName) }
  else s

/-- `storage.RemoveFromPack` (packs.go): fails only if the pack is absent;
removing an id that is not a member is silently a no-op. -/
def RemoveFromPack (c : Collection) (pd : PacksData) (packName : String) (ids : List String) :
    Except String (Collection × PacksData) :=
  match removeFromPacks packName ids pd.packs with
  | Except.error e => Except.error e
  | Except.ok packs1 =>
    Except.ok ({ stickers := c.stickers.map (removePackBackRef packName ids) }, { packs := packs1 })

/-- The find-and-remove loop of `storage.DeleteSticker` (collection.go):
remove the first record with the given ID, returning it and the remainder. -/
def removeFirstSticker (id : String) : List Sticker → Option (Sticker × List Sticker)
  | [] => none
  | s :: rest =>
    if s.ID = id then some (s, rest)
    else (removeFirstSticker id rest).map (fun pr => (pr.1, s :: pr.2))

/-- `storage.DeleteSticker` (collection.go): delete the record, then cascade
a `RemoveFromPack` for every pack it listed; a failing cascade step is
logged and skipped, never fatal. -/
def DeleteSticker (c : Collection) (pd : PacksData) (id : String) :
    Except String (Collection × PacksData) :=
  match removeFirstSticker id c.stickers with
  | none => Except.error ("sticker not found: " ++ id)
  | some pr =>
    Except.ok (pr.1.InPacks.foldl (fun st packName =>
      match RemoveFromPack st.1 st.2 packName [id] with
      | Except.ok st1 => st1
      | Except.error _ => st) ({ stickers := pr.2 }, pd))

/-- The find-and-set loop shared by `SetPackAvatar`, `SetPackUsage` and
`UpdatePublished` (packs.go): an always-succeeding field update on the first
pack with the given name. -/
def setFirstPack (f : Pack → Pack) (packName : String) : List Pack → Except String (List Pack) :=
  modifyFirstPack (fun p => Except.ok (f p)) packName

/-- `storage.SetPackAvatar` (packs.go). -/
def SetPackAvatar (pd : PacksData) (packName avatarURL : String) : Except String PacksData :=
  (setFirstPack (fun p => { p with AvatarURL := avatarURL }) packName pd.packs).map PacksData.mk

/-- `storage.SetPackUsage` (packs.go). -/
def SetPackUsage (pd : PacksData) (packName : String) (usage : List String) : Except String PacksData :=
  (setFirstPack (fun p => { p with Usage := usage }) packName pd.packs).map PacksData.mk

/-- `storage.UpdatePublished` (packs.go): records `roomID ↦ stateKey` in the
pack's publish ledger. -/
def UpdatePublished (pd : PacksData) (packName roomID stateKey : String) : Except String PacksData :=
  (setFirstPack (fun p => { p with PublishedRooms := assocSet p.PublishedRooms roomID stateKey })
    packName pd.packs).map PacksData.mk

/-- A JSON value, as produced by Go `encoding/json` for the publish payload. -/
inductive Json where
  | str : String → Json
  | num : Int → Json
  | arr : List Json → Json
  | obj : List (String × Json) → Json

/-- `matrix.PackInfo` (publish.go): MSC2545 pack metadata. -/
structure PackInfo where
  DisplayName : String
  AvatarURL : String
  Usage : List String
  Attribution : String
deriving DecidableEq

/-- `matrix.StickerData` (publish.go): one image entry of the MSC2545
payload, with its nested `info` object flattened into fields. -/
structure StickerData where
  URL : String
  Body : String
  Usage : List String
  Width : Int
  Height : Int
  Size : Int
  MimeType : String
deriving DecidableEq

/-- `matrix.PackContent` (publish.go): the full state-event content; the Go
`map[string]StickerData` keyed by shortcode is an association list. -/
structure PackContent where
  pack : PackInfo
  images : List (String × StickerData)
deriving DecidableEq

/-- Go `encoding/json` emission of `StickerData` per its struct tags:
`url` and `body` are always emitted (no `omitempty` on either), `usage`
only when non-empty, `info` always. -/
def StickerData.toJson (d : StickerData) : List (String × Json) :=
  [("url", Json.str d.URL), ("body", Json.str d.Body)]
  ++ (if d.Usage.isEmpty then [] else [("usage", Json.arr (d.Usage.map Json.str))])
  ++ [("info", Json.obj [("w", Json.num d.Width), ("h", Json.num d.Height),
        ("size", Json.num d.Size), ("mimetype", Json.str d.MimeType)])]

/-- Go `encoding/json` emission of `PackInfo` per its struct tags:
`display_name` always, the rest only when non-empty (`omitempty`). -/
def PackInfo.toJson (p : PackInfo) : List (String × Json) :=
  [("display_name", Json.str p.DisplayName)]
  ++ (if p.AvatarURL = "" then [] else [("avatar_url", Json.str p.AvatarURL)])
  ++ (if p.Usage.isEmpty then [] else [("usage", Json.arr (p.Usage.map Json.str))])
  ++ (if p.Attribution = "" then [] else [("attribution", Json.str p.Attribution)])

/-- Whether a serialized JSON object carries the given field. -/
def hasKey (k : String) (l : List (String × Json)) : Bool :=
  l.any (fun e => e.1 = k)

/-- The per-member entry built by `matrix.PublishPack` (publish.go): body is
the generated alt-text when non-empty, else the original body; the usage
field is copied only when the sticker has an override (`len > 0`). -/
def buildStickerData (s : Sticker) : StickerData :=
  { URL := s.LocalMXC
    Body := if s.GeneratedAltText = "" then s.OriginalBody else s.GeneratedAltText
    Usage := if 0 < s.Usage.length then s.Usage else []
    Width := s.Width
    Height := s.Height
    Size := s.SizeBytes
    MimeType := s.MimeType }

/-- The member loop of `matrix.PublishPack` (publish.go): each member id is
resolved in the collection (a missing member fails the publish), and its
entry is stored in the images map under the sticker's name, falling back to
the content id when the name is empty. -/
def buildImages (c : Collection) : List String → List (String × StickerData) →
    Except String (List (String × StickerData))
  | [], images => Except.ok images
  | id :: rest, images =>
    match c.stickers.find? (fun s => s.ID = id) with
    | none => Except.error ("sticker not found in collection: " ++ id)
    | some s =>
      buildImages c rest
        (assocSet images (if s.Name = "" then id else s.Name) (buildStickerData s))

/-- The pack metadata built by `matrix.PublishPack` (publish.go): usage
defaults to both sticker and emoticon unless the pack configures one. -/
def buildPackInfo (p : Pack) : PackInfo :=
  { DisplayName := p.DisplayName
    AvatarURL := p.AvatarURL
    Usage := if 0 < p.Usage.length then p.Usage else ["sticker", "emoticon"]
    Attribution := p.Attribution }

/-- `matrix.PublishPack` (publish.go): loads the pack, builds the MSC2545
content, sends it under state key equal to the pack name (the send itself is
the external transport, assumed delivered), and records the room and state
key in the pack's publish ledger.  Returns the content, the state key used,
and the updated pack store. -/
def PublishPack (c : Collection) (pd : PacksData) (packName roomID : String) :
    Except String (PackContent × String × PacksData) :=
  match pd.packs.find? (fun p => p.Name = packName) with
  | none => Except.error ("failed to load pack: pack not found: " ++ packName)
  | some pack =>
    match buildImages c pack.StickerIDs [] with
    | Except.error e => Except.error e
    | Except.ok images =>
      let content : PackContent := { pack := buildPackInfo pack, images := images }
      let stateKey := packName
      match UpdatePublished pd packName roomID stateKey with
      | Except.error e => Except.error ("failed to update published rooms: " ++ e)
      | Except.ok pd1 => Except.ok (content, stateKey, pd1)

/-- The bidirectional membership invariant of the data model: a content id is
in a pack's member list exactly when the pack's name is in that sticker's
`InPacks` back-reference. -/
def Bidirectional (c : Collection) (pd : PacksData) : Prop :=
  ∀ p ∈ pd.packs, ∀ s ∈ c.stickers, (s.ID ∈ p.StickerIDs ↔ p.Name ∈ s.InPacks)

instance (c : Collection) (pd : PacksData) : Decidable (Bidirectional c pd) := by
  unfold Bidirectional; infer_instance

/-- No content id appears twice in any pack's member list. -/
def NoDupPackMembers (pd : PacksData) : Prop :=
  ∀ p ∈ pd.packs, p.StickerIDs.Nodup

instance (pd : PacksData) : Decidable (NoDupPackMembers pd) := by
  unfold NoDupPackMembers; infer_instance

/-- States of the two stores reachable from empty stores through the
operations the bot actually performs (reaction-driven collection, command
handlers, and the publish translator). -/
inductive Reachable : Collection × PacksData → Prop where
  | init : Reachable (⟨[]⟩, ⟨[]⟩)
  | collect (c : Collection) (pd : PacksData) (s : Sticker) :
      Reachable (c, pd) → Reachable (AddSticker c s, pd)
  | create (c : Collection) (pd pd1 : PacksData) (userID name : String) :
      Reachable (c, pd) → packCreate pd userID name = Except.ok pd1 → Reachable (c, pd1)
  | addToPack (c c1 : Collection) (pd pd1 : PacksData) (packName : String) (ids : List String) :
      Reachable (c, pd) → AddToPack c pd packName ids = Except.ok (c1, pd1) → Reachable (c1, pd1)
  | removeFromPack (c c1 : Collection) (pd pd1 : PacksData) (packName : String) (ids : List String) :
      Reachable (c, pd) → RemoveFromPack c pd packName ids = Except.ok (c1, pd1) → Reachable (c1, pd1)
  | deleteSticker (c c1 : Collection) (pd pd1 : PacksData) (id : String) :
      Reachable (c, pd) → DeleteSticker c pd id = Except.ok (c1, pd1) → Reachable (c1, pd1)
  | updateAltText (c c1 : Collection) (pd : PacksData) (id altText : String) :
      Reachable (c, pd) → UpdateAltText c id altText = Except.ok c1 → Reachable (c1, pd)
  | setStickerUsage (c c1 : Collection) (pd : PacksData) (id : String) (usage : List String) :
      Reachable (c, pd) → SetStickerUsage c id usage = Except.ok c1 → Reachable (c1, pd)
  | setStickerName (c c1 : Collection) (pd : PacksData) (id name : String) :
      Reachable (c, pd) → SetStickerName c id name = Except.ok c1 → Reachable (c1, pd)
  | setPackAvatar (c : Collection) (pd pd1 : PacksData) (packName avatarURL : String) :
      Reachable (c, pd) → SetPackAvatar pd packName avatarURL = Except.ok pd1 → Reachable (c, pd1)
  | setPackUsage (c : Collection) (pd pd1 : PacksData) (packName : String) (usage : List String) :
      Reachable (c, pd) → SetPackUsage pd packName usage = Except.ok pd1 → Reachable (c, pd1)
  | publish (c : Collection) (pd pd1 : PacksData) (packName roomID : String)
      (content : PackContent) (stateKey : String) :
      Reachable (c, pd) → PublishPack c pd packName roomID = Except.ok (content, stateKey, pd1) →
      Reachable (c, pd1)

/-- The persisted pack store after `bot.packCreate`: unchanged when the
command fails (the store is only written on the success path). -/
def runPackCreate (pd : PacksData) (userID name : String) : PacksData :=
  match packCreate pd userID name with
  | Except.ok pd1 => pd1
  | Except.error _ => pd

section Lemmas

theorem addStickerList_length_of_mem (s : Sticker) (l : List Sticker)
    (h : ∃ e ∈ l, e.ID = s.ID) : (addStickerList s l).length = l.length := by
  induction l with
  | nil => simp at h
  | cons e rest ih =>
    by_cases hid : e.ID = s.ID
    · simp [addStickerList, hid]
    · have hrest : ∃ x ∈ rest, x.ID = s.ID := by
        rcases h with ⟨x, hx, hxid⟩
        rcases List.mem_cons.mp hx with rfl | hx2
        · exact absurd hxid hid
        · exact ⟨x, hx2, hxid⟩
      simp [addStickerList, hid, ih hrest]

theorem find?_addStickerList (s : Sticker) (id : String) (hid : s.ID = id) (l : List Sticker)
    (h : ∃ e ∈ l, e.ID = id) :
    (addStickerList s l).find? (fun x => x.ID = id) = some s := by
  subst hid
  induction l with
  | nil => simp at h
  | cons e rest ih =>
    by_cases hid : e.ID = s.ID
    · simp [addStickerList, hid]
    · have hrest : ∃ x ∈ rest, x.ID = s.ID := by
        rcases h with ⟨x, hx, hxid⟩
        rcases List.mem_cons.mp hx with rfl | hx2
        · exact absurd hxid hid
        · exact ⟨x, hx2, hxid⟩
      simp [addStickerList, hid, ih hrest]

theorem except_map_ok_inv {α β : Type} {f : α → β} {x : Except String α} {b : β}
    (h : Except.map f x = Except.ok b) : ∃ a, x = Except.ok a ∧ b = f a := by
  cases x with
  | error e => simp [Except.map] at h
  | ok a => exact ⟨a, rfl, by simpa [Except.map] using h.symm⟩

theorem except_map_comp {α β γ : Type} (f : α → β) (g : β → γ) (x : Except String α) :
    Except.map g (Except.map f x) = Except.map (fun a => g (f a)) x := by
  cases x <;> rfl

theorem modifyFirstPack_ok_decomp (f : Pack → Except String Pack) (packName : String)
    (l l1 : List Pack) (h : modifyFirstPack f packName l = Except.ok l1) :
    ∃ pre p q post, l = pre ++ p :: post ∧ (∀ r ∈ pre, r.Name ≠ packName) ∧
      p.Name = packName ∧ f p = Except.ok q ∧ l1 = pre ++ q :: post := by
  induction l generalizing l1 with
  | nil => simp [modifyFirstPack] at h
  | cons p rest ih =>
    by_cases hname : p.Name = packName
    · rw [modifyFirstPack, if_pos hname] at h
      obtain ⟨q, hq, hl1⟩ := except_map_ok_inv h
      exact ⟨[], p, q, rest, rfl, by simp, hname, hq, by simp [hl1]⟩
    · rw [modifyFirstPack, if_neg hname] at h
      obtain ⟨l2, hl2, hl1⟩ := except_map_ok_inv h
      obtain ⟨pre, p1, q, post, hsplit, hpre, hn, hf, hout⟩ := ih l2 hl2
      refine ⟨p :: pre, p1, q, post, by simp [hsplit], ?_, hn, hf, by simp [hl1, hout]⟩
      intro r hr
      rcases List.mem_cons.mp hr with rfl | hr2
      · exact hname
      · exact hpre r hr2

theorem modifyFirstPack_append (f : Pack → Except String Pack) (packName : String)
    (pre : List Pack) (p : Pack) (post : List Pack)
    (hpre : ∀ r ∈ pre, r.Name ≠ packName) (hname : p.Name = packName) :
    modifyFirstPack f packName (pre ++ p :: post)
      = Except.map (fun q => pre ++ q :: post) (f p) := by
  induction pre with
  | nil =>
    rw [List.nil_append, modifyFirstPack, if_pos hname]
    cases f p <;> rfl
  | cons r pre ih =>
    have hr : r.Name ≠ packName := hpre r (List.mem_cons_self r pre)
    have ih2 := ih (fun x hx => hpre x (List.mem_cons_of_mem r hx))
    rw [List.cons_append, modifyFirstPack, if_neg hr, ih2, except_map_comp]
    rfl

theorem addIds_error_of_missing (c : Collection) (ids : List String) (members : List String)
    (h : ∃ i ∈ ids, ∀ s ∈ c.stickers, s.ID ≠ i) :
    ∃ i, (∀ s ∈ c.stickers, s.ID ≠ i) ∧
      addIds c ids members = Except.error ("sticker not found in collection: " ++ i) := by
  induction ids generalizing members with
  | nil => simp at h
  | cons id rest ih =>
    by_cases hex : c.stickers.any (fun s => s.ID = id) = true
    · have hrest : ∃ i ∈ rest, ∀ s ∈ c.stickers, s.ID ≠ i := by
        rcases h with ⟨i, hi, hall⟩
        rcases List.mem_cons.mp hi with rfl | h2
        · obtain ⟨s, hs, hsid⟩ := List.any_eq_true.mp hex
          exact absurd (of_decide_eq_true hsid) (hall s hs)
        · exact ⟨i, h2, hall⟩
      obtain ⟨i, hi, heq⟩ := ih _ hrest
      exact ⟨i, hi, by rw [addIds, if_pos hex]; exact heq⟩
    · refine ⟨id, ?_, by rw [addIds, if_neg hex]⟩
      intro s hs hsid
      exact hex (List.any_eq_true.mpr ⟨s, hs, decide_eq_true hsid⟩)

theorem addToPacks_error_of_missing (c : Collection) (packName : String) (ids : List String)
    (l : List Pack) (hfound : ∃ p ∈ l, p.Name = packName)
    (hmiss : ∃ i ∈ ids, ∀ s ∈ c.stickers, s.ID ≠ i) :
    ∃ i, (∀ s ∈ c.stickers, s.ID ≠ i) ∧
      addToPacks c packName ids l = Except.error ("sticker not found in collection: " ++ i) := by
  induction l with
  | nil => simp at hfound
  | cons p rest ih =>
    by_cases hname : p.Name = packName
    · obtain ⟨i, hi, heq⟩ := addIds_error_of_missing c ids p.StickerIDs hmiss
      refine ⟨i, hi, ?_⟩
      simp only [addToPacks, modifyFirstPack]
      rw [if_pos hname, heq]
      rfl
    · have hfound2 : ∃ q ∈ rest, q.Name = packName := by
        rcases hfound with ⟨q, hq, hqn⟩
        rcases List.mem_cons.mp hq with rfl | h2
        · exact absurd hqn hname
        · exact ⟨q, h2, hqn⟩
      obtain ⟨i, hi, heq⟩ := ih hfound2
      refine ⟨i, hi, ?_⟩
      simp only [addToPacks] at heq ⊢
      rw [modifyFirstPack, if_neg hname, heq]
      rfl

theorem modifyFirstPack_error_of_not_found (f : Pack → Except String Pack) (packName : String)
    (l : List Pack) (h : ∀ p ∈ l, p.Name ≠ packName) :
    modifyFirstPack f packName l = Except.error ("pack not found: " ++ packName) := by
  induction l with
  | nil => rfl
  | cons p rest ih =>
    rw [modifyFirstPack, if_neg (h p (List.mem_cons_self p rest)),
      ih (fun x hx => h x (List.mem_cons_of_mem p hx))]
    rfl

theorem addPackBackRef_ID (packName : String) (ids : List String) (s : Sticker) :
    (addPackBackRef packName ids s).ID = s.ID := by
  unfold addPackBackRef
  by_cases h1 : s.ID ∈ ids
  · by_cases h2 : packName ∈ s.InPacks <;> simp [h1, h2]
  · simp [h1]

theorem addPackBackRef_idem (packName : String) (ids : List String) (s : Sticker) :
    addPackBackRef packName ids (addPackBackRef packName ids s) = addPackBackRef packName ids s := by
  unfold addPackBackRef
  by_cases h1 : s.ID ∈ ids
  · by_cases h2 : packName ∈ s.InPacks
    · simp [h1, h2]
    · simp [h1, h2]
  · simp [h1]

theorem addIds_single_inv (c : Collection) (id : String) (members ms : List String)
    (h : addIds c [id] members = Except.ok ms) :
    c.stickers.any (fun s => s.ID = id) = true ∧
      ms = (if id ∈ members then members else members ++ [id]) := by
  by_cases hex : c.stickers.any (fun s => s.ID = id) = true
  · rw [addIds, if_pos hex, addIds] at h
    exact ⟨hex, (Except.ok.inj h).symm⟩
  · rw [addIds, if_neg hex] at h
    cases h

theorem mem_addIds_single (id : String) (members : List String) :
    id ∈ (if id ∈ members then members else members ++ [id]) := by
  by_cases hmem : id ∈ members
  · rwa [if_pos hmem]
  · rw [if_neg hmem]
    exact List.mem_append_right members (List.mem_singleton.mpr rfl)

end Lemmas

/-- A concrete workflow record: content id `"a"` (the hash collaborator is
instantiated with a constant function for fixtures). -/
def sampleRecord : Sticker :=
  collectStickerRecord (fun _ => "a") [] ("!room:x") ("$evt") ("mxc://h/m") ("mxc://h/m")
    ("image/png") 1 1 1 ("") ("") 0

/-- The same item after curation: human-assigned name, one pack membership,
a usage override. -/
def richSticker : Sticker :=
  { sampleRecord with Name := "cat", InPacks := ["p"], Usage := ["sticker"] }

/-- C1: re-collecting bytes whose content id already identifies an item never
increases the item count — `AddSticker` overwrites the existing record with
that id in place instead of appending a duplicate. -/
theorem C1_recollect_never_grows (hash : List Nat → String) (imageData : List Nat)
    (roomID eventID mxcURI localMXC mimeType : String) (width height sizeBytes : Int)
    (originalBody altText : String) (now : Nat) (c : Collection)
    (h : ∃ e ∈ c.stickers, e.ID = hash imageData) :
    ((AddSticker c (collectStickerRecord hash imageData roomID eventID mxcURI localMXC
        mimeType width height sizeBytes originalBody altText now)).stickers).length
      = c.stickers.length :=
  addStickerList_length_of_mem _ _ h

/-- Witness for C1 at a one-item collection already holding id `"a"`. -/
theorem C1_recollect_never_grows_witness :
    ((AddSticker ⟨[richSticker]⟩ (collectStickerRecord (fun _ => "a") [] ("!room:x") ("$evt")
        ("mxc://h/m") ("mxc://h/m") ("image/png") 1 1 1 ("") ("") 0)).stickers).length
      = (Collection.mk [richSticker]).stickers.length :=
  C1_recollect_never_grows (fun _ => "a") [] ("!room:x") ("$evt") ("mxc://h/m") ("mxc://h/m")
    ("image/png") 1 1 1 ("") ("") 0 ⟨[richSticker]⟩
    ⟨richSticker, List.mem_singleton.mpr rfl, rfl⟩

/-- C2 counterexample: re-collecting the bytes of a curated item does NOT
leave name, pack membership and usage override unchanged — the upsert stores
the freshly built record, so the stored name becomes the content id again,
the pack list becomes empty and the usage override is cleared. -/
theorem C2_recollect_frame_counterexample :
    ((AddSticker ⟨[richSticker]⟩ sampleRecord).stickers.map
        (fun s => (s.Name, s.InPacks, s.Usage)))
      = [(("a" : String), ([] : List String), ([] : List String))] ∧
    richSticker.Name = "cat" ∧ richSticker.InPacks = ["p"] ∧
    richSticker.Usage = ["sticker"] ∧ richSticker.ID = sampleRecord.ID :=
  ⟨rfl, rfl, rfl, rfl, rfl⟩

/-- C2 (amended): re-collection replaces the entire stored record with the
freshly built one — caption and provenance fields take the new values, and
with them the pack-membership list is reset to empty, the short name is
reset to the content id, and the usage override is cleared. -/
theorem C2_recollect_replaces_whole_record (hash : List Nat → String) (imageData : List Nat)
    (roomID eventID mxcURI localMXC mimeType : String) (width height sizeBytes : Int)
    (originalBody altText : String) (now : Nat) (c : Collection)
    (h : ∃ e ∈ c.stickers, e.ID = hash imageData) :
    GetSticker (AddSticker c (collectStickerRecord hash imageData roomID eventID mxcURI localMXC
        mimeType width height sizeBytes originalBody altText now)) (hash imageData)
      = Except.ok (collectStickerRecord hash imageData roomID eventID mxcURI localMXC
        mimeType width height sizeBytes originalBody altText now) ∧
    (collectStickerRecord hash imageData roomID eventID mxcURI localMXC
        mimeType width height sizeBytes originalBody altText now).InPacks = [] ∧
    (collectStickerRecord hash imageData roomID eventID mxcURI localMXC
        mimeType width height sizeBytes originalBody altText now).Name = hash imageData ∧
    (collectStickerRecord hash imageData roomID eventID mxcURI localMXC
        mimeType width height sizeBytes originalBody altText now).Usage = [] := by
  refine ⟨?_, rfl, rfl, rfl⟩
  have hf := find?_addStickerList (collectStickerRecord hash imageData roomID eventID mxcURI
    localMXC mimeType width height sizeBytes originalBody altText now) (hash imageData) rfl
    c.stickers h
  simp [GetSticker, AddSticker, hf]

/-- Witness for C2's amended theorem on the curated one-item collection. -/
theorem C2_recollect_replaces_whole_record_witness :
    GetSticker (AddSticker ⟨[richSticker]⟩ (collectStickerRecord (fun _ => "a") [] ("!room:x")
        ("$evt") ("mxc://h/m") ("mxc://h/m") ("image/png") 1 1 1 ("") ("") 0)) ("a")
      = Except.ok (collectStickerRecord (fun _ => "a") [] ("!room:x") ("$evt") ("mxc://h/m")
        ("mxc://h/m") ("image/png") 1 1 1 ("") ("") 0) :=
  (C2_recollect_replaces_whole_record (fun _ => "a") [] ("!room:x") ("$evt") ("mxc://h/m")
    ("mxc://h/m") ("image/png") 1 1 1 ("") ("") 0 ⟨[richSticker]⟩
    ⟨richSticker, List.mem_singleton.mpr rfl, rfl⟩).1

/-- C7: `ParseUsage` is case-insensitive over its vocabulary — `sticker`,
`emoticon` and its synonym `emoji`, `both`, and `reset` (no override, never
an error); every other token fails with an invalid-usage error naming the
accepted vocabulary. -/
theorem C7_parseUsage_vocabulary (s : String) :
    (strToLower (strTrimSpace s) = "sticker" → ParseUsage s = Except.ok ["sticker"]) ∧
    ((strToLower (strTrimSpace s) = "emoticon" ∨ strToLower (strTrimSpace s) = "emoji") →
      ParseUsage s = Except.ok ["emoticon"]) ∧
    (strToLower (strTrimSpace s) = "both" → ParseUsage s = Except.ok ["sticker", "emoticon"]) ∧
    (strToLower (strTrimSpace s) = "reset" → ParseUsage s = Except.ok []) ∧
    (strToLower (strTrimSpace s) ≠ "sticker" → strToLower (strTrimSpace s) ≠ "emoticon" →
      strToLower (strTrimSpace s) ≠ "emoji" → strToLower (strTrimSpace s) ≠ "both" →
      strToLower (strTrimSpace s) ≠ "reset" →
      ParseUsage s = Except.error ("invalid usage type: " ++ strToLower (strTrimSpace s) ++
        " (valid: sticker, emoticon, emoji, both, reset)")) := by
  refine ⟨fun h => ?_, fun h => ?_, fun h => ?_, fun h => ?_, fun h1 h2 h3 h4 h5 => ?_⟩
  · simp [ParseUsage, h]
  · rcases h with h | h <;> simp [ParseUsage, h]
  · simp [ParseUsage, h]
  · simp [ParseUsage, h]
  · simp [ParseUsage, h1, h2, h3, h4, h5]

/-- Witness for C7 across the vocabulary, exercising case-insensitivity,
trimming, the `emoji` synonym, `reset` and the error case. -/
theorem C7_parseUsage_vocabulary_witness :
    ParseUsage (" StIcKeR ") = Except.ok ["sticker"] ∧
    ParseUsage ("EMOJI") = Except.ok ["emoticon"] ∧
    ParseUsage ("Emoticon") = Except.ok ["emoticon"] ∧
    ParseUsage ("BOTH") = Except.ok ["sticker", "emoticon"] ∧
    ParseUsage ("Reset") = Except.ok [] ∧
    ParseUsage ("wat") =
      Except.error ("invalid usage type: wat (valid: sticker, emoticon, emoji, both, reset)") :=
  ⟨(C7_parseUsage_vocabulary (" StIcKeR ")).1 (by decide),
   (C7_parseUsage_vocabulary ("EMOJI")).2.1 (Or.inr (by decide)),
   (C7_parseUsage_vocabulary ("Emoticon")).2.1 (Or.inl (by decide)),
   (C7_parseUsage_vocabulary ("BOTH")).2.2.1 (by decide),
   (C7_parseUsage_vocabulary ("Reset")).2.2.2.1 (by decide),
   (C7_parseUsage_vocabulary ("wat")).2.2.2.2 (by decide) (by decide) (by decide) (by decide)
     (by decide)⟩

/-- C9: creating a pack whose name normalizes (spaces to hyphens, then
lower-cased) to the reserved `unsorted` fails with the reserved-name error,
and the pack store is left unchanged. -/
theorem C9_create_reserved_unsorted (pd : PacksData) (userID name : String)
    (h : strToLower (strReplaceAll name (" ") ("-")) = "unsorted") :
    packCreate pd userID name = Except.error
      ("Cannot create pack named 'unsorted' - this is a reserved name for stickers not in any pack") ∧
    runPackCreate pd userID name = pd := by
  have h1 : packCreate pd userID name = Except.error
      ("Cannot create pack named 'unsorted' - this is a reserved name for stickers not in any pack") := by
    simp [packCreate, h]
  exact ⟨h1, by simp [runPackCreate, h1]⟩

/-- An existing empty pack named `"p"`, shared by the concrete fixtures. -/
def packFixture : Pack :=
  { Name := "p", DisplayName := "p", AvatarURL := "", Attribution := "@u:x",
    StickerIDs := [], PublishedRooms := [], Usage := [] }

/-- Witness for C9 at the name `"Unsorted"` on a store with one pack. -/
theorem C9_create_reserved_unsorted_witness :
    packCreate ⟨[packFixture]⟩ ("@u:x") ("Unsorted")
      = Except.error
        ("Cannot create pack named 'unsorted' - this is a reserved name for stickers not in any pack") ∧
    runPackCreate ⟨[packFixture]⟩ ("@u:x") ("Unsorted") = ⟨[packFixture]⟩ :=
  C9_create_reserved_unsorted _ ("@u:x") ("Unsorted") (by decide)

/-- C4 counterexample: with item `"a"` collected, pack `"p"` empty and item
`"b"` absent, `AddToPack "p" ["a", "b"]` fails on `"b"` — and contrary to
the claim, the update for the already-validated `"a"` is NOT persisted: the
Go saves sit after the whole validation loop, so the stores are unchanged
and `"p"` is still empty. -/
theorem C4_partial_persist_counterexample :
    AddToPack ⟨[sampleRecord]⟩ ⟨[packFixture]⟩ ("p") ["a", "b"]
      = Except.error ("sticker not found in collection: b") ∧
    runAddToPack ⟨[sampleRecord]⟩ ⟨[packFixture]⟩ ("p") ["a", "b"]
      = (⟨[sampleRecord]⟩, ⟨[packFixture]⟩) ∧
    packFixture.StickerIDs = [] :=
  ⟨rfl, rfl, rfl⟩

/-- C4 (amended): `AddToPack` fails with not-found when the pack is absent,
and fails with not-found when any listed content id is absent from the
collection — ids are validated one at a time in call order — but on any
failure NO membership update from the call is persisted: the stores are
saved only after every listed id has been validated and applied. -/
theorem C4_addToPack_validation (c : Collection) (pd : PacksData) (packName : String)
    (ids : List String) :
    ((∀ p ∈ pd.packs, p.Name ≠ packName) →
      AddToPack c pd packName ids = Except.error ("pack not found: " ++ packName)) ∧
    ((∃ p ∈ pd.packs, p.Name = packName) → (∃ i ∈ ids, ∀ s ∈ c.stickers, s.ID ≠ i) →
      ∃ i, (∀ s ∈ c.stickers, s.ID ≠ i) ∧
        AddToPack c pd packName ids = Except.error ("sticker not found in collection: " ++ i)) ∧
    (∀ e, AddToPack c pd packName ids = Except.error e →
      runAddToPack c pd packName ids = (c, pd)) := by
  refine ⟨fun habs => ?_, fun hfound hmiss => ?_, fun e herr => ?_⟩
  · have h1 := modifyFirstPack_error_of_not_found
      (fun p => Except.map (fun ms => { p with StickerIDs := ms }) (addIds c ids p.StickerIDs))
      packName pd.packs habs
    simp only [AddToPack, addToPacks]
    rw [h1]
  · obtain ⟨i, hi, heq⟩ := addToPacks_error_of_missing c packName ids pd.packs hfound hmiss
    refine ⟨i, hi, ?_⟩
    simp only [AddToPack]
    rw [heq]
  · simp only [runAddToPack, herr]

/-- Witness for C4's amended theorem: a missing pack and a missing id, both
leaving the one-item, one-pack stores untouched. -/
theorem C4_addToPack_validation_witness :
    AddToPack ⟨[sampleRecord]⟩ ⟨[packFixture]⟩ ("q") ["a"]
      = Except.error ("pack not found: q") ∧
    runAddToPack ⟨[sampleRecord]⟩ ⟨[packFixture]⟩ ("p") ["a", "b"]
      = (⟨[sampleRecord]⟩, ⟨[packFixture]⟩) :=
  ⟨(C4_addToPack_validation ⟨[sampleRecord]⟩ ⟨[packFixture]⟩ ("q") ["a"]).1 (by decide),
   (C4_addToPack_validation ⟨[sampleRecord]⟩ ⟨[packFixture]⟩ ("p") ["a", "b"]).2.2
     ("sticker not found in collection: b") rfl⟩

/-- C8: `AddToPack` is idempotent per id — once a call adding `[id]` to a
pack has succeeded, repeating the very same call succeeds and leaves both
stores exactly as they were after the first call (in particular the pack's
member list keeps its length and content). -/
theorem C8_addToPack_idempotent (c c1 : Collection) (pd pd1 : PacksData) (packName id : String)
    (h : AddToPack c pd packName [id] = Except.ok (c1, pd1)) :
    AddToPack c1 pd1 packName [id] = Except.ok (c1, pd1) := by
  simp only [AddToPack] at h
  cases hps : addToPacks c packName [id] pd.packs with
  | error e => rw [hps] at h; cases h
  | ok packs1 =>
    rw [hps] at h
    have hpair := Except.ok.inj h
    injection hpair with hc1 hpd1
    simp only [addToPacks] at hps
    obtain ⟨pre, p, q, post, hsplit, hpre, hname, hfp, hout⟩ :=
      modifyFirstPack_ok_decomp _ packName pd.packs packs1 hps
    obtain ⟨ms, hadd, hq⟩ := except_map_ok_inv hfp
    subst hq
    obtain ⟨hex, hms⟩ := addIds_single_inv c id p.StickerIDs ms hadd
    have hid_ms : id ∈ ms := hms ▸ mem_addIds_single id p.StickerIDs
    have hc1s : c1.stickers = c.stickers.map (addPackBackRef packName [id]) := by
      rw [← hc1]
    have hex1 : c1.stickers.any (fun s => s.ID = id) = true := by
      obtain ⟨s, hs, hsid⟩ := List.any_eq_true.mp hex
      refine List.any_eq_true.mpr ⟨addPackBackRef packName [id] s, ?_, ?_⟩
      · rw [hc1s]; exact List.mem_map_of_mem _ hs
      · rw [addPackBackRef_ID]; exact hsid
    have hadd2 : addIds c1 [id] ms = Except.ok ms := by
      rw [addIds, if_pos hex1, if_pos hid_ms, addIds]
    have hps2 : addToPacks c1 packName [id] pd1.packs = Except.ok pd1.packs := by
      have hsplit1 : pd1.packs = pre ++ { p with StickerIDs := ms } :: post := by
        rw [← hpd1]; exact hout
      rw [hsplit1]
      simp only [addToPacks]
      rw [modifyFirstPack_append _ packName pre ({ p with StickerIDs := ms }) post hpre hname]
      rw [show ({ p with StickerIDs := ms } : Pack).StickerIDs = ms from rfl, hadd2]
      rfl
    have hmap : c1.stickers.map (addPackBackRef packName [id]) = c1.stickers := by
      rw [hc1s, List.map_map]
      exact List.map_congr_left (fun s _ => addPackBackRef_idem packName [id] s)
    simp only [AddToPack]
    rw [hps2]
    show Except.ok ((⟨c1.stickers.map (addPackBackRef packName [id])⟩ : Collection),
      (⟨pd1.packs⟩ : PacksData)) = Except.ok (c1, pd1)
    rw [hmap]

/-- Witness for C8: adding `"a"` to pack `"p"` once, then applying the
theorem to replay the identical call on the resulting stores. -/
theorem C8_addToPack_idempotent_witness :
    AddToPack ⟨[addPackBackRef ("p") ["a"] sampleRecord]⟩
        ⟨[{ packFixture with StickerIDs := ["a"] }]⟩ ("p") ["a"]
      = Except.ok (⟨[addPackBackRef ("p") ["a"] sampleRecord]⟩,
        ⟨[{ packFixture with StickerIDs := ["a"] }]⟩) :=
  C8_addToPack_idempotent ⟨[sampleRecord]⟩ ⟨[addPackBackRef ("p") ["a"] sampleRecord]⟩
    ⟨[packFixture]⟩ ⟨[{ packFixture with StickerIDs := ["a"] }]⟩ ("p") ("a") rfl

section PublishLemmas

theorem mem_assocSet {α : Type} (m : List (String × α)) (k : String) (v : α) (e : String × α)
    (he : e ∈ assocSet m k v) : e ∈ m ∨ e = (k, v) := by
  unfold assocSet at he
  by_cases hk : m.any (fun x => x.1 = k) = true
  · rw [if_pos hk] at he
    obtain ⟨x, hx, hxe⟩ := List.mem_map.mp he
    by_cases hxk : x.1 = k
    · right; rw [← hxe, if_pos hxk]
    · left; rw [← hxe, if_neg hxk]; exact hx
  · rw [if_neg hk] at he
    rcases List.mem_append.mp he with h1 | h2
    · left; exact h1
    · right; exact List.mem_singleton.mp h2

theorem buildImages_entries (c : Collection) (ids : List String)
    (acc images : List (String × StickerData))
    (h : buildImages c ids acc = Except.ok images)
    (hacc : ∀ e ∈ acc, ∃ s ∈ c.stickers, e.2 = buildStickerData s) :
    ∀ e ∈ images, ∃ s ∈ c.stickers, e.2 = buildStickerData s := by
  induction ids generalizing acc with
  | nil =>
    rw [buildImages] at h
    exact (Except.ok.inj h) ▸ hacc
  | cons id rest ih =>
    rw [buildImages] at h
    cases hfind : c.stickers.find? (fun s => s.ID = id) with
    | none => rw [hfind] at h; cases h
    | some s =>
      rw [hfind] at h
      have hs : s ∈ c.stickers := List.mem_of_find?_eq_some hfind
      refine ih _ h ?_
      intro e he
      rcases mem_assocSet _ _ _ e he with h1 | h2
      · exact hacc e h1
      · exact ⟨s, hs, by rw [h2]⟩

theorem publishPack_ok_inv (c : Collection) (pd : PacksData) (packName roomID : String)
    (content : PackContent) (key : String) (pd1 : PacksData)
    (h : PublishPack c pd packName roomID = Except.ok (content, key, pd1)) :
    ∃ pack, pd.packs.find? (fun p => p.Name = packName) = some pack ∧
      buildImages c pack.StickerIDs [] = Except.ok content.images ∧
      content.pack = buildPackInfo pack ∧ key = packName := by
  simp only [PublishPack] at h
  split at h
  · cases h
  · rename_i pack hfind
    split at h
    · cases h
    · rename_i images himg
      split at h
      · cases h
      · rename_i pd2 hupd
        have heq := Except.ok.inj h
        injection heq with hcont hrest
        injection hrest with hkey hpd
        refine ⟨pack, hfind, ?_, ?_, hkey.symm⟩
        · rw [← hcont]; exact himg
        · rw [← hcont]

theorem buildStickerData_usage (s : Sticker) : (buildStickerData s).Usage = s.Usage := by
  unfold buildStickerData
  by_cases h : 0 < s.Usage.length
  · simp [h]
  · simp only [if_neg h]
    cases hu : s.Usage with
    | nil => rfl
    | cons a l => rw [hu] at h; simp at h

theorem hasKey_usage_toJson (d : StickerData) :
    hasKey ("usage") (StickerData.toJson d) = !d.Usage.isEmpty := by
  by_cases h : d.Usage.isEmpty <;> simp [StickerData.toJson, hasKey, h]

theorem bnot_isEmpty_iff (l : List String) : (!l.isEmpty) = true ↔ l ≠ [] := by
  cases l <;> simp

theorem usageDefault_eq (l : List String) :
    (if 0 < l.length then l else ["sticker", "emoticon"])
      = (if l = [] then ["sticker", "emoticon"] else l) := by
  cases l <;> simp

end PublishLemmas

/-- The fixture pack holding the one collected item `"a"`. -/
def packWithA : Pack := { packFixture with StickerIDs := ["a"] }

/-- The fixture pack after a publish to room `"!r:x"`. -/
def publishedPackFixture : Pack := { packWithA with PublishedRooms := [("!r:x", "p")] }

/-- The payload `PublishPack` builds for `packWithA` over `[richSticker]`. -/
def contentFixture : PackContent :=
  { pack := buildPackInfo packWithA,
    images := [(("cat" : String), buildStickerData richSticker)] }

/-- C5 counterexample: publishing a pack whose one member has an empty
generated caption and an empty original caption emits a `body` field equal
to the empty string — the field is NOT omitted (`body` carries no
`omitempty` tag). -/
theorem C5_body_not_omitted_counterexample :
    Except.map
        (fun r => r.1.images.map (fun e => (e.1, hasKey ("body") (StickerData.toJson e.2), e.2.Body)))
        (PublishPack ⟨[sampleRecord]⟩ ⟨[packWithA]⟩ ("p") ("!r:x"))
      = Except.ok [(("a" : String), true, ("" : String))] ∧
    sampleRecord.GeneratedAltText = "" ∧ sampleRecord.OriginalBody = "" :=
  ⟨rfl, rfl, rfl⟩

/-- C5 (amended): in the payload built by `PublishPack`, every member entry
takes the item's generated caption as body when that is non-empty, else the
item's original provenance caption; the serialized entry always carries the
`body` field — when both captions are absent it is present with the empty
string, not omitted. -/
theorem C5_publish_body (c : Collection) (pd : PacksData) (packName roomID : String)
    (content : PackContent) (key : String) (pd1 : PacksData)
    (h : PublishPack c pd packName roomID = Except.ok (content, key, pd1)) :
    ∀ e ∈ content.images, ∃ s ∈ c.stickers,
      e.2 = buildStickerData s ∧
      e.2.Body = (if s.GeneratedAltText = "" then s.OriginalBody else s.GeneratedAltText) ∧
      List.lookup ("body") (StickerData.toJson e.2) = some (Json.str e.2.Body) := by
  obtain ⟨pack, hfind, himg, hcont, hkey⟩ :=
    publishPack_ok_inv c pd packName roomID content key pd1 h
  intro e he
  obtain ⟨s, hs, hes⟩ := buildImages_entries c pack.StickerIDs [] content.images himg
    (by intro e he; cases he) e he
  refine ⟨s, hs, hes, ?_, ?_⟩
  · rw [hes]; rfl
  · rw [hes]; rfl

/-- Witness for C5's amended theorem: the curated item published through
`packWithA`, whose entry keys `"cat"` to a body drawn from the captions. -/
theorem C5_publish_body_witness :
    ∃ s ∈ (Collection.mk [richSticker]).stickers,
      buildStickerData richSticker = buildStickerData s ∧
      (buildStickerData richSticker).Body
        = (if s.GeneratedAltText = "" then s.OriginalBody else s.GeneratedAltText) ∧
      List.lookup ("body") (StickerData.toJson (buildStickerData richSticker))
        = some (Json.str (buildStickerData richSticker).Body) :=
  C5_publish_body ⟨[richSticker]⟩ ⟨[packWithA]⟩ ("p") ("!r:x") contentFixture ("p")
    ⟨[publishedPackFixture]⟩ rfl (("cat" : String), buildStickerData richSticker)
    (List.mem_singleton.mpr rfl)

/-- C6: in the payload built by `PublishPack`, a member entry's serialized
`usage` field is present iff that item has a usage override set (any
non-empty override, including an explicit both-set one), and the payload's
pack-level usage is the pack's configured default when set, else
sticker-and-emoticon. -/
theorem C6_publish_usage (c : Collection) (pd : PacksData) (packName roomID : String)
    (content : PackContent) (key : String) (pd1 : PacksData)
    (h : PublishPack c pd packName roomID = Except.ok (content, key, pd1)) :
    (∀ e ∈ content.images, ∃ s ∈ c.stickers,
      e.2 = buildStickerData s ∧
      (hasKey ("usage") (StickerData.toJson e.2) = true ↔ s.Usage ≠ [])) ∧
    (∃ pack, pd.packs.find? (fun p => p.Name = packName) = some pack ∧
      content.pack.Usage = (if pack.Usage = [] then ["sticker", "emoticon"] else pack.Usage)) := by
  obtain ⟨pack, hfind, himg, hcont, hkey⟩ :=
    publishPack_ok_inv c pd packName roomID content key pd1 h
  constructor
  · intro e he
    obtain ⟨s, hs, hes⟩ := buildImages_entries c pack.StickerIDs [] content.images himg
      (by intro e he; cases he) e he
    refine ⟨s, hs, hes, ?_⟩
    rw [hes, hasKey_usage_toJson, buildStickerData_usage]
    exact bnot_isEmpty_iff s.Usage
  · refine ⟨pack, hfind, ?_⟩
    rw [hcont]
    show (if 0 < pack.Usage.length then pack.Usage else ["sticker", "emoticon"]) = _
    exact usageDefault_eq pack.Usage

/-- Witness for C6 through the same concrete publish: `richSticker` has an
override (`["sticker"]`), so the entry's usage is included; `packWithA`
configures no default, so the pack-level usage falls back to both. -/
theorem C6_publish_usage_witness :
    ∃ pack, (PacksData.mk [packWithA]).packs.find? (fun p => p.Name = "p") = some pack ∧
      contentFixture.pack.Usage = (if pack.Usage = [] then ["sticker", "emoticon"] else pack.Usage) :=
  (C6_publish_usage ⟨[richSticker]⟩ ⟨[packWithA]⟩ ("p") ("!r:x") contentFixture ("p")
    ⟨[publishedPackFixture]⟩ rfl).2

/-- The publish-ledger invariant: every state key recorded in any pack's
publish ledger equals that pack's own name. -/
def LedgerInv (pd : PacksData) : Prop :=
  ∀ p ∈ pd.packs, ∀ e ∈ p.PublishedRooms, e.2 = p.Name

/-- The name-and-ledger footprint of a pack list, used to transport the
ledger invariant across operations that touch neither. -/
def packShape (p : Pack) : String × List (String × String) :=
  (p.Name, p.PublishedRooms)

section LedgerLemmas

theorem ledgerInv_of_shape (pd pd1 : PacksData)
    (h : pd1.packs.map packShape = pd.packs.map packShape)
    (hinv : LedgerInv pd) : LedgerInv pd1 := by
  intro p hp e he
  have hmem : packShape p ∈ pd.packs.map packShape := by
    rw [← h]; exact List.mem_map_of_mem _ hp
  obtain ⟨q, hq, hqe⟩ := List.mem_map.mp hmem
  injection hqe with hname hrooms
  have he2 : e ∈ q.PublishedRooms := by rw [hrooms]; exact he
  rw [hinv q hq e he2, hname]

theorem modifyFirstPack_shape (f : Pack → Except String Pack) (packName : String)
    (l l1 : List Pack) (h : modifyFirstPack f packName l = Except.ok l1)
    (hf : ∀ p q, f p = Except.ok q → packShape q = packShape p) :
    l1.map packShape = l.map packShape := by
  obtain ⟨pre, p, q, post, hsplit, hpre, hname, hfp, hout⟩ :=
    modifyFirstPack_ok_decomp f packName l l1 h
  rw [hout, hsplit]
  simp [List.map_append, hf p q hfp]

theorem addToPack_shape (c c1 : Collection) (pd pd1 : PacksData) (packName : String)
    (ids : List String) (h : AddToPack c pd packName ids = Except.ok (c1, pd1)) :
    pd1.packs.map packShape = pd.packs.map packShape := by
  simp only [AddToPack] at h
  cases hps : addToPacks c packName ids pd.packs with
  | error e => rw [hps] at h; cases h
  | ok packs1 =>
    rw [hps] at h
    injection (Except.ok.inj h) with hc hpd
    simp only [addToPacks] at hps
    have := modifyFirstPack_shape _ packName pd.packs packs1 hps (fun p q hq => by
      obtain ⟨ms, _, hq2⟩ := except_map_ok_inv hq
      rw [hq2]; rfl)
    rw [← hpd]
    exact this

theorem removeFromPack_shape (c c1 : Collection) (pd pd1 : PacksData) (packName : String)
    (ids : List String) (h : RemoveFromPack c pd packName ids = Except.ok (c1, pd1)) :
    pd1.packs.map packShape = pd.packs.map packShape := by
  simp only [RemoveFromPack] at h
  cases hps : removeFromPacks packName ids pd.packs with
  | error e => rw [hps] at h; cases h
  | ok packs1 =>
    rw [hps] at h
    injection (Except.ok.inj h) with hc hpd
    simp only [removeFromPacks] at hps
    have := modifyFirstPack_shape _ packName pd.packs packs1 hps (fun p q hq => by
      rw [← Except.ok.inj hq]; rfl)
    rw [← hpd]
    exact this

theorem foldl_preserve {α β : Type} (P : β → Prop) (f : β → α → β) (l : List α) (b : β)
    (hb : P b) (hstep : ∀ x a, P x → P (f x a)) : P (l.foldl f b) := by
  induction l generalizing b with
  | nil => exact hb
  | cons a l ih => exact ih _ (hstep b a hb)

theorem deleteSticker_shape (c c1 : Collection) (pd pd1 : PacksData) (id : String)
    (h : DeleteSticker c pd id = Except.ok (c1, pd1)) :
    pd1.packs.map packShape = pd.packs.map packShape := by
  simp only [DeleteSticker] at h
  cases hrm : removeFirstSticker id c.stickers with
  | none => rw [hrm] at h; cases h
  | some pr =>
    rw [hrm] at h
    have hfold := Except.ok.inj h
    have hP : ∀ st : Collection × PacksData,
        st.2.packs.map packShape = pd.packs.map packShape →
        ∀ packName, ((match RemoveFromPack st.1 st.2 packName [id] with
          | Except.ok st1 => st1
          | Except.error _ => st) : Collection × PacksData).2.packs.map packShape
            = pd.packs.map packShape := by
      intro st hst packName
      cases hrf : RemoveFromPack st.1 st.2 packName [id] with
      | error e => simpa using hst
      | ok st1 =>
        cases st1 with
        | mk c2 pd2 =>
          have := removeFromPack_shape st.1 c2 st.2 pd2 packName [id] hrf
          simpa using this.trans hst
    have : ((pr.1.InPacks.foldl (fun (st : Collection × PacksData) packName =>
        match RemoveFromPack st.1 st.2 packName [id] with
        | Except.ok st1 => st1
        | Except.error _ => st) (⟨pr.2⟩, pd)) : Collection × PacksData).2.packs.map packShape
          = pd.packs.map packShape := by
      refine foldl_preserve
        (fun (st : Collection × PacksData) => st.2.packs.map packShape = pd.packs.map packShape)
        _ pr.1.InPacks _ rfl ?_
      intro st packName hst
      exact hP st hst packName
    rw [hfold] at this
    exact this

theorem setFirstPack_ok_shape (g : Pack → Pack) (packName : String) (pd pd1 : PacksData)
    (h : Except.map PacksData.mk (setFirstPack g packName pd.packs) = Except.ok pd1)
    (hg : ∀ p, packShape (g p) = packShape p) :
    pd1.packs.map packShape = pd.packs.map packShape := by
  obtain ⟨packs1, hm, hpd1⟩ := except_map_ok_inv h
  simp only [setFirstPack] at hm
  have := modifyFirstPack_shape _ packName pd.packs packs1 hm (fun p q hq => by
    rw [← Except.ok.inj hq]; exact hg p)
  rw [hpd1]
  exact this

theorem packCreate_ok_inv (pd pd1 : PacksData) (userID name : String)
    (h : packCreate pd userID name = Except.ok pd1) :
    ∃ newName, pd1 = PacksData.mk (pd.packs ++
      [{ Name := newName, DisplayName := name, AvatarURL := "", Attribution := userID,
         StickerIDs := [], PublishedRooms := [], Usage := [] }]) := by
  simp only [packCreate, CreatePackWithAttribution] at h
  split at h
  · cases h
  · split at h
    · cases h
    · exact ⟨_, (Except.ok.inj h).symm⟩

theorem updatePublished_ledgerInv (pd pd1 : PacksData) (packName roomID : String)
    (h : UpdatePublished pd packName roomID packName = Except.ok pd1)
    (hinv : LedgerInv pd) : LedgerInv pd1 := by
  simp only [UpdatePublished, setFirstPack] at h
  obtain ⟨packs1, hm, hpd1⟩ := except_map_ok_inv h
  obtain ⟨pre, p, q, post, hsplit, hpre, hname, hfp, hout⟩ :=
    modifyFirstPack_ok_decomp _ packName pd.packs packs1 hm
  have hq := Except.ok.inj hfp
  rw [hpd1]
  intro r hr e he
  have hr1 : r ∈ pre ++ q :: post := by rw [← hout]; exact hr
  rcases List.mem_append.mp hr1 with h1 | h2
  · exact hinv r (by rw [hsplit]; exact List.mem_append_left _ h1) e he
  rcases List.mem_cons.mp h2 with rfl | h3
  · have hrooms : r.PublishedRooms = assocSet p.PublishedRooms roomID packName := by
      rw [← hq]
    have hrname : r.Name = p.Name := by rw [← hq]
    rw [hrooms] at he
    rcases mem_assocSet _ _ _ e he with hold | hnew
    · have hpmem : p ∈ pd.packs := by
        rw [hsplit]; exact List.mem_append_right _ (List.mem_cons_self p post)
      rw [hinv p hpmem e hold, hrname]
    · rw [hnew, hrname, hname]
  · exact hinv r
      (by rw [hsplit]; exact List.mem_append_right _ (List.mem_cons_of_mem p h3)) e he

theorem publishPack_ok_updatePublished (c : Collection) (pd : PacksData)
    (packName roomID : String) (content : PackContent) (key : String) (pd1 : PacksData)
    (h : PublishPack c pd packName roomID = Except.ok (content, key, pd1)) :
    UpdatePublished pd packName roomID packName = Except.ok pd1 := by
  simp only [PublishPack] at h
  split at h
  · cases h
  · split at h
    · cases h
    · split at h
      · cases h
      · rename_i pd2 hupd
        have heq := Except.ok.inj h
        injection heq with hcont hrest
        injection hrest with hkey hpd
        rw [← hpd]
        exact hupd

end LedgerLemmas

/-- C10: in every reachable pair of stores, every value recorded in a pack's
publish ledger equals that pack's own name, and a re-publish of that pack to
any recorded destination uses exactly the previously recorded grouping key
(the state key it sends and records is again the pack name). -/
theorem C10_publish_ledger_keys (st : Collection × PacksData) (h : Reachable st) :
    LedgerInv st.2 ∧
    (∀ p ∈ st.2.packs, ∀ room key, (room, key) ∈ p.PublishedRooms →
      ∀ content key1 pd1, PublishPack st.1 st.2 p.Name room = Except.ok (content, key1, pd1) →
        key1 = key) := by
  have hinv : LedgerInv st.2 := by
    induction h with
    | init => intro p hp; cases hp
    | collect c pd s hr ih => exact ih
    | create c pd pd1 userID name hr hcr ih =>
      obtain ⟨newName, hpd1⟩ := packCreate_ok_inv pd pd1 userID name hcr
      rw [hpd1]
      intro p hp e he
      rcases List.mem_append.mp hp with h1 | h2
      · exact ih p h1 e he
      · rw [List.mem_singleton.mp h2] at he
        cases he
    | addToPack c c1 pd pd1 packName ids hr heq ih =>
      exact ledgerInv_of_shape pd pd1 (addToPack_shape c c1 pd pd1 packName ids heq) ih
    | removeFromPack c c1 pd pd1 packName ids hr heq ih =>
      exact ledgerInv_of_shape pd pd1 (removeFromPack_shape c c1 pd pd1 packName ids heq) ih
    | deleteSticker c c1 pd pd1 id hr heq ih =>
      exact ledgerInv_of_shape pd pd1 (deleteSticker_shape c c1 pd pd1 id heq) ih
    | updateAltText c c1 pd id altText hr heq ih => exact ih
    | setStickerUsage c c1 pd id usage hr heq ih => exact ih
    | setStickerName c c1 pd id name hr heq ih => exact ih
    | setPackAvatar c pd pd1 packName avatarURL hr heq ih =>
      exact ledgerInv_of_shape pd pd1
        (setFirstPack_ok_shape _ packName pd pd1 heq (fun p => rfl)) ih
    | setPackUsage c pd pd1 packName usage hr heq ih =>
      exact ledgerInv_of_shape pd pd1
        (setFirstPack_ok_shape _ packName pd pd1 heq (fun p => rfl)) ih
    | publish c pd pd1 packName roomID content stateKey hr heq ih =>
      exact updatePublished_ledgerInv pd pd1 packName roomID
        (publishPack_ok_updatePublished c pd packName roomID content stateKey pd1 heq) ih
  refine ⟨hinv, ?_⟩
  intro p hp room key hkey content key1 pd1 hpub
  obtain ⟨pack, hfind, h1, h2, hkeyeq⟩ :=
    publishPack_ok_inv st.1 st.2 p.Name room content key1 pd1 hpub
  rw [hkeyeq]
  exact (hinv p hp (room, key) hkey).symm

/-- Witness for C10: from empty stores, create pack `"p"`, publish it to
room `"!r:x"`; the resulting reachable pack store satisfies the ledger
invariant. -/
theorem C10_publish_ledger_keys_witness :
    LedgerInv (⟨[{ packFixture with PublishedRooms := [("!r:x", "p")] }]⟩ : PacksData) :=
  (C10_publish_ledger_keys
    (⟨[]⟩, ⟨[{ packFixture with PublishedRooms := [("!r:x", "p")] }]⟩)
    (Reachable.publish ⟨[]⟩ ⟨[packFixture]⟩
      ⟨[{ packFixture with PublishedRooms := [("!r:x", "p")] }]⟩
      ("p") ("!r:x") ⟨buildPackInfo packFixture, []⟩ ("p")
      (Reachable.create ⟨[]⟩ ⟨[]⟩ ⟨[packFixture]⟩ ("@u:x") ("p") Reachable.init rfl) rfl)).1

section MembershipLemmas

theorem post_names_ne (pre : List Pack) (p : Pack) (post : List Pack)
    (hnames : ((pre ++ p :: post).map Pack.Name).Nodup) : ∀ r ∈ post, r.Name ≠ p.Name := by
  intro r hr heq
  rw [List.map_append, List.map_cons] at hnames
  have h2 : p.Name ∉ post.map Pack.Name := (List.nodup_cons.mp (List.nodup_append.mp hnames).2.1).1
  exact h2 (heq ▸ List.mem_map_of_mem Pack.Name hr)

theorem addPackBackRef_InPacks_mem (packName : String) (ids : List String) (s : Sticker)
    (n : String) : n ∈ (addPackBackRef packName ids s).InPacks
      ↔ (n ∈ s.InPacks ∨ (s.ID ∈ ids ∧ n = packName)) := by
  unfold addPackBackRef
  by_cases h1 : s.ID ∈ ids
  · by_cases h2 : packName ∈ s.InPacks
    · rw [if_pos h1, if_pos h2]
      constructor
      · exact fun h => Or.inl h
      · rintro (h | ⟨-, rfl⟩)
        · exact h
        · exact h2
    · rw [if_pos h1, if_neg h2]
      show n ∈ s.InPacks ++ [packName] ↔ _
      rw [List.mem_append, List.mem_singleton]
      simp [h1]
  · rw [if_neg h1]
    simp [h1]

theorem removePackBackRef_ID (packName : String) (ids : List String) (s : Sticker) :
    (removePackBackRef packName ids s).ID = s.ID := by
  unfold removePackBackRef
  by_cases h1 : s.ID ∈ ids <;> simp [h1]

theorem removePackBackRef_InPacks_mem (packName : String) (ids : List String) (s : Sticker)
    (n : String) : n ∈ (removePackBackRef packName ids s).InPacks
      ↔ (n ∈ s.InPacks ∧ ¬(s.ID ∈ ids ∧ n = packName)) := by
  unfold removePackBackRef
  by_cases h1 : s.ID ∈ ids
  · rw [if_pos h1]
    show n ∈ s.InPacks.filter (fun x => x ≠ packName) ↔ _
    rw [List.mem_filter]
    simp [h1]
  · rw [if_neg h1]
    simp [h1]

theorem mem_removeIds (members ids : List String) (x : String) :
    x ∈ removeIds members ids ↔ x ∈ members ∧ x ∉ ids := by
  induction ids generalizing members with
  | nil => simp [removeIds]
  | cons i rest ih =>
    rw [removeIds, List.foldl_cons]
    rw [show List.foldl (fun ms j => ms.filter (fun x => x ≠ j))
        (members.filter (fun x => x ≠ i)) rest
      = removeIds (members.filter (fun x => x ≠ i)) rest from rfl]
    rw [ih]
    rw [List.mem_filter]
    simp only [List.mem_cons, not_or, decide_eq_true_eq]
    tauto

theorem nodup_removeIds (members ids : List String) (h : members.Nodup) :
    (removeIds members ids).Nodup := by
  induction ids generalizing members with
  | nil => exact h
  | cons i rest ih =>
    rw [removeIds, List.foldl_cons]
    exact ih _ (h.filter _)

theorem addIds_ok_mem (c : Collection) (ids members ms : List String)
    (h : addIds c ids members = Except.ok ms) (x : String) :
    x ∈ ms ↔ x ∈ members ∨ x ∈ ids := by
  induction ids generalizing members with
  | nil =>
    rw [addIds] at h
    rw [← Except.ok.inj h]
    simp
  | cons id rest ih =>
    rw [addIds] at h
    by_cases hex : c.stickers.any (fun s => s.ID = id) = true
    · rw [if_pos hex] at h
      rw [ih _ h]
      by_cases hm : id ∈ members
      · rw [if_pos hm]
        simp only [List.mem_cons]
        constructor
        · rintro (h1 | h1)
          · exact Or.inl h1
          · exact Or.inr (Or.inr h1)
        · rintro (h1 | rfl | h1)
          · exact Or.inl h1
          · exact Or.inl hm
          · exact Or.inr h1
      · rw [if_neg hm]
        rw [List.mem_append, List.mem_singleton]
        simp only [List.mem_cons]
        tauto
    · rw [if_neg hex] at h
      cases h

theorem addIds_ok_nodup (c : Collection) (ids members ms : List String)
    (h : addIds c ids members = Except.ok ms) (hnd : members.Nodup) : ms.Nodup := by
  induction ids generalizing members with
  | nil =>
    rw [addIds] at h
    exact (Except.ok.inj h) ▸ hnd
  | cons id rest ih =>
    rw [addIds] at h
    by_cases hex : c.stickers.any (fun s => s.ID = id) = true
    · rw [if_pos hex] at h
      refine ih _ h ?_
      by_cases hm : id ∈ members
      · rwa [if_pos hm]
      · rw [if_neg hm]
        rw [List.nodup_append]
        exact ⟨hnd, List.nodup_singleton id, by
          intro a ha hb
          rw [List.mem_singleton] at hb
          exact hm (hb ▸ ha)⟩
    · rw [if_neg hex] at h
      cases h

theorem addToPack_preserves_inv (c c1 : Collection) (pd pd1 : PacksData) (packName : String)
    (ids : List String) (hB : Bidirectional c pd) (hN : NoDupPackMembers pd)
    (hnames : (pd.packs.map Pack.Name).Nodup)
    (h : AddToPack c pd packName ids = Except.ok (c1, pd1)) :
    Bidirectional c1 pd1 ∧ NoDupPackMembers pd1 := by
  simp only [AddToPack] at h
  cases hps : addToPacks c packName ids pd.packs with
  | error e => rw [hps] at h; cases h
  | ok packs1 =>
    rw [hps] at h
    injection (Except.ok.inj h) with hc hpd
    simp only [addToPacks] at hps
    obtain ⟨pre, p, q, post, hsplit, hpre, hname, hfp, hout⟩ :=
      modifyFirstPack_ok_decomp _ packName pd.packs packs1 hps
    obtain ⟨ms, hadd, hq⟩ := except_map_ok_inv hfp
    subst hq
    have hpost : ∀ r ∈ post, r.Name ≠ packName := by
      intro r hr
      rw [← hname]
      exact post_names_ne pre p post (hsplit ▸ hnames) r hr
    have hc1s : c1.stickers = c.stickers.map (addPackBackRef packName ids) := by rw [← hc]
    have hpd1p : pd1.packs = pre ++ { p with StickerIDs := ms } :: post := by
      rw [← hpd]; exact hout
    have hpmem : p ∈ pd.packs := by
      rw [hsplit]; exact List.mem_append_right _ (List.mem_cons_self p post)
    constructor
    · intro r hr s1 hs1
      rw [hc1s] at hs1
      obtain ⟨s, hs, rfl⟩ := List.mem_map.mp hs1
      rw [hpd1p] at hr
      have hID : (addPackBackRef packName ids s).ID = s.ID := addPackBackRef_ID packName ids s
      have hside : r ∈ pre ∨ r = { p with StickerIDs := ms } ∨ r ∈ post := by
        rcases List.mem_append.mp hr with h1 | h2
        · exact Or.inl h1
        · rcases List.mem_cons.mp h2 with h3 | h3
          · exact Or.inr (Or.inl h3)
          · exact Or.inr (Or.inr h3)
      rcases hside with h1 | h1 | h1
      · have hrn : r.Name ≠ packName := hpre r h1
        have hrmem : r ∈ pd.packs := by rw [hsplit]; exact List.mem_append_left _ h1
        rw [hID, addPackBackRef_InPacks_mem, hB r hrmem s hs]
        constructor
        · exact Or.inl
        · rintro (h3 | ⟨-, h4⟩)
          · exact h3
          · exact absurd h4 hrn
      · subst h1
        rw [hID]
        have hmem2 := addIds_ok_mem c ids p.StickerIDs ms hadd s.ID
        have hBp := hB p hpmem s hs
        have hIn := addPackBackRef_InPacks_mem packName ids s p.Name
        show s.ID ∈ ms ↔ p.Name ∈ (addPackBackRef packName ids s).InPacks
        rw [hmem2, hIn]
        constructor
        · rintro (h4 | h4)
          · exact Or.inl (hBp.mp h4)
          · exact Or.inr ⟨h4, hname⟩
        · rintro (h4 | ⟨h4, -⟩)
          · exact Or.inl (hBp.mpr h4)
          · exact Or.inr h4
      · have hrn : r.Name ≠ packName := hpost r h1
        have hrmem : r ∈ pd.packs := by
          rw [hsplit]; exact List.mem_append_right _ (List.mem_cons_of_mem p h1)
        rw [hID, addPackBackRef_InPacks_mem, hB r hrmem s hs]
        constructor
        · exact Or.inl
        · rintro (h3 | ⟨-, h4⟩)
          · exact h3
          · exact absurd h4 hrn
    · intro r hr
      rw [hpd1p] at hr
      rcases List.mem_append.mp hr with h1 | h2
      · exact hN r (by rw [hsplit]; exact List.mem_append_left _ h1)
      · rcases List.mem_cons.mp h2 with rfl | h3
        · exact addIds_ok_nodup c ids p.StickerIDs ms hadd (hN p hpmem)
        · exact hN r (by rw [hsplit]; exact List.mem_append_right _ (List.mem_cons_of_mem p h3))

theorem removeFromPack_preserves_inv (c c1 : Collection) (pd pd1 : PacksData) (packName : String)
    (ids : List String) (hB : Bidirectional c pd) (hN : NoDupPackMembers pd)
    (hnames : (pd.packs.map Pack.Name).Nodup)
    (h : RemoveFromPack c pd packName ids = Except.ok (c1, pd1)) :
    Bidirectional c1 pd1 ∧ NoDupPackMembers pd1 := by
  simp only [RemoveFromPack] at h
  cases hps : removeFromPacks packName ids pd.packs with
  | error e => rw [hps] at h; cases h
  | ok packs1 =>
    rw [hps] at h
    injection (Except.ok.inj h) with hc hpd
    simp only [removeFromPacks] at hps
    obtain ⟨pre, p, q, post, hsplit, hpre, hname, hfp, hout⟩ :=
      modifyFirstPack_ok_decomp _ packName pd.packs packs1 hps
    have hq := Except.ok.inj hfp
    subst hq
    have hpost : ∀ r ∈ post, r.Name ≠ packName := by
      intro r hr
      rw [← hname]
      exact post_names_ne pre p post (hsplit ▸ hnames) r hr
    have hc1s : c1.stickers = c.stickers.map (removePackBackRef packName ids) := by rw [← hc]
    have hpd1p : pd1.packs = pre ++ { p with StickerIDs := removeIds p.StickerIDs ids } :: post := by
      rw [← hpd]; exact hout
    have hpmem : p ∈ pd.packs := by
      rw [hsplit]; exact List.mem_append_right _ (List.mem_cons_self p post)
    constructor
    · intro r hr s1 hs1
      rw [hc1s] at hs1
      obtain ⟨s, hs, rfl⟩ := List.mem_map.mp hs1
      rw [hpd1p] at hr
      have hID : (removePackBackRef packName ids s).ID = s.ID := removePackBackRef_ID packName ids s
      have hside : r ∈ pre ∨ r = { p with StickerIDs := removeIds p.StickerIDs ids } ∨ r ∈ post := by
        rcases List.mem_append.mp hr with h1 | h2
        · exact Or.inl h1
        · rcases List.mem_cons.mp h2 with h3 | h3
          · exact Or.inr (Or.inl h3)
          · exact Or.inr (Or.inr h3)
      rcases hside with h1 | h1 | h1
      · have hrn : r.Name ≠ packName := hpre r h1
        have hrmem : r ∈ pd.packs := by rw [hsplit]; exact List.mem_append_left _ h1
        rw [hID, removePackBackRef_InPacks_mem, hB r hrmem s hs]
        constructor
        · exact fun h3 => ⟨h3, fun hcon => hrn hcon.2⟩
        · exact And.left
      · subst h1
        rw [hID]
        have hBp := hB p hpmem s hs
        have hIn := removePackBackRef_InPacks_mem packName ids s p.Name
        show s.ID ∈ removeIds p.StickerIDs ids
          ↔ p.Name ∈ (removePackBackRef packName ids s).InPacks
        rw [mem_removeIds, hIn]
        constructor
        · rintro ⟨h4, h5⟩
          exact ⟨hBp.mp h4, fun hcon => h5 hcon.1⟩
        · rintro ⟨h4, h5⟩
          exact ⟨hBp.mpr h4, fun h6 => h5 ⟨h6, hname⟩⟩
      · have hrn : r.Name ≠ packName := hpost r h1
        have hrmem : r ∈ pd.packs := by
          rw [hsplit]; exact List.mem_append_right _ (List.mem_cons_of_mem p h1)
        rw [hID, removePackBackRef_InPacks_mem, hB r hrmem s hs]
        constructor
        · exact fun h3 => ⟨h3, fun hcon => hrn hcon.2⟩
        · exact And.left
    · intro r hr
      rw [hpd1p] at hr
      rcases List.mem_append.mp hr with h1 | h2
      · exact hN r (by rw [hsplit]; exact List.mem_append_left _ h1)
      · rcases List.mem_cons.mp h2 with rfl | h3
        · exact nodup_removeIds p.StickerIDs ids (hN p hpmem)
        · exact hN r (by rw [hsplit]; exact List.mem_append_right _ (List.mem_cons_of_mem p h3))

theorem removeFromPack_names (c c1 : Collection) (pd pd1 : PacksData) (packName : String)
    (ids : List String) (h : RemoveFromPack c pd packName ids = Except.ok (c1, pd1)) :
    pd1.packs.map Pack.Name = pd.packs.map Pack.Name := by
  have hsh := removeFromPack_shape c c1 pd pd1 packName ids h
  calc pd1.packs.map Pack.Name = (pd1.packs.map packShape).map Prod.fst := by
        rw [List.map_map]; rfl
    _ = (pd.packs.map packShape).map Prod.fst := by rw [hsh]
    _ = pd.packs.map Pack.Name := by rw [List.map_map]; rfl

theorem removeFirstSticker_decomp (id : String) (l : List Sticker) (pr : Sticker × List Sticker)
    (h : removeFirstSticker id l = some pr) :
    ∃ pre post, l = pre ++ pr.1 :: post ∧ pr.2 = pre ++ post := by
  induction l generalizing pr with
  | nil => cases h
  | cons s rest ih =>
    rw [removeFirstSticker] at h
    by_cases hid : s.ID = id
    · rw [if_pos hid] at h
      have hpr : pr = (s, rest) := (Option.some.inj h).symm
      exact ⟨[], rest, by rw [hpr]; rfl, by rw [hpr]; rfl⟩
    · rw [if_neg hid] at h
      cases hrec : removeFirstSticker id rest with
      | none => rw [hrec] at h; cases h
      | some pr2 =>
        rw [hrec] at h
        obtain ⟨pre, post, h1, h2⟩ := ih pr2 hrec
        have hpr : pr = (pr2.1, s :: pr2.2) := (Option.some.inj h).symm
        refine ⟨s :: pre, post, ?_, ?_⟩
        · rw [hpr]
          show s :: rest = (s :: pre) ++ pr2.1 :: post
          rw [List.cons_append, h1]
        · rw [hpr]
          show s :: pr2.2 = (s :: pre) ++ post
          rw [List.cons_append, h2]

theorem deleteSticker_preserves_inv (c c1 : Collection) (pd pd1 : PacksData) (id : String)
    (hB : Bidirectional c pd) (hN : NoDupPackMembers pd)
    (hnames : (pd.packs.map Pack.Name).Nodup)
    (h : DeleteSticker c pd id = Except.ok (c1, pd1)) :
    Bidirectional c1 pd1 ∧ NoDupPackMembers pd1 := by
  simp only [DeleteSticker] at h
  cases hrm : removeFirstSticker id c.stickers with
  | none => rw [hrm] at h; cases h
  | some pr =>
    rw [hrm] at h
    have hfold := Except.ok.inj h
    obtain ⟨pre, post, hsplit, hrest⟩ := removeFirstSticker_decomp id c.stickers pr hrm
    have hB0 : Bidirectional ⟨pr.2⟩ pd := by
      intro p hp s hs
      refine hB p hp s ?_
      rw [hsplit]
      rw [show (Collection.mk pr.2).stickers = pr.2 from rfl, hrest] at hs
      rcases List.mem_append.mp hs with h1 | h2
      · exact List.mem_append_left _ h1
      · exact List.mem_append_right _ (List.mem_cons_of_mem _ h2)
    have hP := foldl_preserve
      (fun (st : Collection × PacksData) =>
        Bidirectional st.1 st.2 ∧ NoDupPackMembers st.2 ∧ (st.2.packs.map Pack.Name).Nodup)
      (fun (st : Collection × PacksData) packName =>
        match RemoveFromPack st.1 st.2 packName [id] with
        | Except.ok st1 => st1
        | Except.error _ => st)
      pr.1.InPacks (⟨pr.2⟩, pd) ⟨hB0, hN, hnames⟩ ?_
    · rw [hfold] at hP
      exact ⟨hP.1, hP.2.1⟩
    · rintro st packName ⟨b1, b2, b3⟩
      cases hrf : RemoveFromPack st.1 st.2 packName [id] with
      | error e => simpa [hrf] using ⟨b1, b2, b3⟩
      | ok st1 =>
        cases st1 with
        | mk c2 pd2 =>
          have hpres := removeFromPack_preserves_inv st.1 c2 st.2 pd2 packName [id] b1 b2 b3 hrf
          have hnm := removeFromPack_names st.1 c2 st.2 pd2 packName [id] hrf
          simpa [hrf] using ⟨hpres.1, hpres.2, hnm ▸ b3⟩

theorem mem_addStickerList (s : Sticker) (l : List Sticker) (x : Sticker)
    (h : x ∈ addStickerList s l) : x = s ∨ x ∈ l := by
  induction l with
  | nil => simpa [addStickerList] using h
  | cons e rest ih =>
    rw [addStickerList] at h
    by_cases hid : e.ID = s.ID
    · rw [if_pos hid] at h
      rcases List.mem_cons.mp h with rfl | h2
      · exact Or.inl rfl
      · exact Or.inr (List.mem_cons_of_mem e h2)
    · rw [if_neg hid] at h
      rcases List.mem_cons.mp h with rfl | h2
      · exact Or.inr (List.mem_cons_self x rest)
      · rcases ih h2 with h3 | h3
        · exact Or.inl h3
        · exact Or.inr (List.mem_cons_of_mem e h3)

theorem addSticker_fresh_preserves (c : Collection) (pd : PacksData) (s : Sticker)
    (hB : Bidirectional c pd) (hin : s.InPacks = [])
    (hnotmem : ∀ p ∈ pd.packs, s.ID ∉ p.StickerIDs) :
    Bidirectional (AddSticker c s) pd := by
  intro p hp s1 hs1
  rcases mem_addStickerList s c.stickers s1 hs1 with rfl | h2
  · constructor
    · exact fun h3 => absurd h3 (hnotmem p hp)
    · intro h3
      rw [hin] at h3
      cases h3
  · exact hB p hp s1 h2

end MembershipLemmas

/-- C3 counterexample: a reachable, bidirectionally consistent state (item
`"a"` collected and added to pack `"p"`) in which a single mutating store
operation — the workflow's upsert re-collecting the same bytes — completes
and leaves the stores inconsistent: `"a"` is still in `"p"`'s member list,
but `"p"` is no longer in the item's pack list. -/
theorem C3_upsert_breaks_invariant_counterexample :
    Reachable (⟨[addPackBackRef ("p") ["a"] sampleRecord]⟩, ⟨[packWithA]⟩) ∧
    Bidirectional ⟨[addPackBackRef ("p") ["a"] sampleRecord]⟩ ⟨[packWithA]⟩ ∧
    ¬ Bidirectional
      (AddSticker ⟨[addPackBackRef ("p") ["a"] sampleRecord]⟩ sampleRecord) ⟨[packWithA]⟩ := by
  refine ⟨?_, by decide, by decide⟩
  exact Reachable.addToPack ⟨[sampleRecord]⟩ ⟨[addPackBackRef ("p") ["a"] sampleRecord]⟩
    ⟨[packFixture]⟩ ⟨[packWithA]⟩ ("p") ["a"]
    (Reachable.create ⟨[sampleRecord]⟩ ⟨[]⟩ ⟨[packFixture]⟩ ("@u:x") ("p")
      (Reachable.collect ⟨[]⟩ ⟨[]⟩ sampleRecord Reachable.init) rfl) rfl

/-- C3 (amended): in stores whose pack names are distinct, the bidirectional
membership invariant and the no-duplicate-member invariant are preserved by
`AddToPack`, `RemoveFromPack` and `DeleteSticker`, and by an `AddSticker`
whose record carries an empty pack list and whose content id is in no pack's
member list (the fresh-collection case); the upsert of an item currently
belonging to a pack replaces its pack list wholesale and is exactly the case
the counterexample excludes. -/
theorem C3_membership_invariant_amended (c : Collection) (pd : PacksData)
    (hB : Bidirectional c pd) (hN : NoDupPackMembers pd)
    (hnames : (pd.packs.map Pack.Name).Nodup) :
    (∀ packName ids c1 pd1, AddToPack c pd packName ids = Except.ok (c1, pd1) →
      Bidirectional c1 pd1 ∧ NoDupPackMembers pd1) ∧
    (∀ packName ids c1 pd1, RemoveFromPack c pd packName ids = Except.ok (c1, pd1) →
      Bidirectional c1 pd1 ∧ NoDupPackMembers pd1) ∧
    (∀ id c1 pd1, DeleteSticker c pd id = Except.ok (c1, pd1) →
      Bidirectional c1 pd1 ∧ NoDupPackMembers pd1) ∧
    (∀ s : Sticker, s.InPacks = [] → (∀ p ∈ pd.packs, s.ID ∉ p.StickerIDs) →
      Bidirectional (AddSticker c s) pd ∧ NoDupPackMembers pd) := by
  refine ⟨?_, ?_, ?_, ?_⟩
  · intro packName ids c1 pd1 h
    exact addToPack_preserves_inv c c1 pd pd1 packName ids hB hN hnames h
  · intro packName ids c1 pd1 h
    exact removeFromPack_preserves_inv c c1 pd pd1 packName ids hB hN hnames h
  · intro id c1 pd1 h
    exact deleteSticker_preserves_inv c c1 pd pd1 id hB hN hnames h
  · intro s hin hnotmem
    exact ⟨addSticker_fresh_preserves c pd s hB hin hnotmem, hN⟩

/-- Witness for C3's amended theorem: on the one-item, one-pack stores, a
fresh collection of a new item preserves both invariants. -/
theorem C3_membership_invariant_amended_witness :
    Bidirectional (AddSticker ⟨[sampleRecord]⟩ sampleRecord) ⟨[packFixture]⟩ ∧
    NoDupPackMembers ⟨[packFixture]⟩ :=
  (C3_membership_invariant_amended ⟨[sampleRecord]⟩ ⟨[packFixture]⟩ (by decide) (by decide)
    (by decide)).2.2.2 sampleRecord rfl (by decide)

end Stickerbook
